import Mathlib

/-!
Shallow embedding of the diff-to-review pipeline of the `ai-code-reviewer`
repository (TypeScript), and proofs about it.

The embedding translates the relevant functions of `src/main.ts`,
`src/services/ai.ts`, `src/services/github.ts`, `src/services/retry.ts` and
`src/utils/index.ts` into Lean. JavaScript numbers that hold line counts and
line numbers are modelled as `Int` (the code only ever adds, subtracts and
compares them); the result of a JavaScript `Number(x)` coercion is modelled
as `Option Int` with `none` standing for `NaN`. Fractional thresholds are
modelled as exact rational comparisons written over the integers (the
operands are small integers, for which floating-point comparison agrees
with exact comparison). Stateful or effectful code (retry loops,
exception handling, network calls) is modelled by explicit state passing:
exceptions become `Except String`, performed delays become an explicit list,
and external calls (model API, JSON parser, regular-expression engine,
cache) become oracle parameters that the theorems quantify over.
-/

namespace AICodeReviewer

/-- List infix test: `infixOf needle haystack` is true when `needle` occurs
as a contiguous sublist of `haystack`. -/
def infixOf (needle : List Char) : List Char → Bool
  | [] => needle.isEmpty
  | c :: rest => needle.isPrefixOf (c :: rest) || infixOf needle rest

/-- Substring containment, modelling JavaScript `a.includes(b)`. -/
def containsStr (a b : String) : Bool :=
  infixOf b.data a.data

/-- Splitting a character list at whitespace characters, keeping empty
fragments between consecutive separators (the behaviour of splitting on a
single whitespace character). -/
def splitWordsAux : List Char → List Char → List String
  | [], acc => [String.mk acc.reverse]
  | c :: rest, acc =>
    if c.isWhitespace then String.mk acc.reverse :: splitWordsAux rest []
    else splitWordsAux rest (c :: acc)

/-- Splitting on whitespace, modelling JavaScript `s.split(/\s+/)` for the
purposes of this code base: every caller immediately filters the resulting
words by `length > 3`, which discards the empty fragments on which the two
splitting conventions differ (a JavaScript `\s+` split collapses runs of
whitespace; this splits at each whitespace character). -/
def splitWords (s : String) : List String :=
  splitWordsAux s.data []

/-- JavaScript `s.toUpperCase()`: upper-case every character. (Lean's own
`String.toUpper` is defined by well-founded recursion over byte positions;
this equivalent character-list form is used so that terms evaluate.) -/
def toUpperCase (s : String) : String :=
  String.mk (s.data.map Char.toUpper)

/-- JavaScript `s.toLowerCase()`: lower-case every character. -/
def toLowerCase (s : String) : String :=
  String.mk (s.data.map Char.toLower)

/-- One change line of a diff hunk (the parse-diff `Change` record): whether
it is a context, added or removed line, and its text. -/
inductive ChangeKind where
  | normal
  | add
  | del
deriving DecidableEq, Repr

/-- A change line: its kind and its text content. -/
structure Change where
  kind : ChangeKind
  content : String
deriving DecidableEq, Repr

/-- A diff hunk (the parse-diff `Chunk` record): new/old start lines and
line counts, plus the list of change lines. -/
structure Chunk where
  newStart : Int
  newLines : Int
  oldStart : Int
  oldLines : Int
  changes : List Change
deriving DecidableEq, Repr

/-- A changed file of a parsed diff (the parse-diff `File` record).
`toPath` models the `to` field, the new path (`none` models a
missing/undefined path, e.g. a deleted file); `fromPath` models the `from`
field; `to` and `from` are reserved words in Lean. -/
structure DiffFile where
  toPath : Option String
  fromPath : Option String
  chunks : List Chunk
  additions : Int
  deletions : Int
deriving DecidableEq, Repr

/-- An optional suggested replacement attached to a model finding. -/
structure Suggestion where
  code : String
  description : String
deriving DecidableEq, Repr

/-- One finding returned by the model (`AIReviewResponse` in `types`):
`lineNumber` is the value of the JavaScript coercion `Number(lineNumber)`
(`none` = `NaN`), the rest are the parsed fields. -/
structure AIReviewResponse where
  lineNumber : Option Int
  reviewComment : String
  severity : String
  filePath : String
  suggestion : Option Suggestion
deriving DecidableEq, Repr

/-- A publishable review comment (`ReviewComment` in `types`). -/
structure ReviewComment where
  path : String
  line : Int
  body : String
  side : String
deriving DecidableEq, Repr

/-! ## utils/index.ts -/

/-- Config constant `MAX_CHUNK_TOTAL_LINES` (2000). -/
def MAX_CHUNK_TOTAL_LINES : Int := 2000

/-- Config constant `MAX_FILE_TOTAL_LINES` (5000). -/
def MAX_FILE_TOTAL_LINES : Int := 5000

/-- utils `isChunkTooLarge`: a chunk whose `newLines + oldLines` exceeds the
chunk ceiling is skipped. -/
def isChunkTooLarge (chunk : Chunk) : Bool :=
  chunk.newLines + chunk.oldLines > MAX_CHUNK_TOTAL_LINES

/-- utils `isFileTooLarge`: a file whose `additions + deletions` exceeds the
file ceiling is skipped. -/
def isFileTooLarge (file : DiffFile) : Bool :=
  file.additions + file.deletions > MAX_FILE_TOTAL_LINES

/-- Config `LANGUAGE_MAP`, restricted lookup: maps a lower-cased file
extension to a language name, `none` when the extension is not mapped. -/
def LANGUAGE_MAP (ext : String) : Option String :=
  if ext = "js" then some "JavaScript"
  else if ext = "jsx" then some "React"
  else if ext = "ts" then some "TypeScript"
  else if ext = "tsx" then some "React TypeScript"
  else if ext = "py" then some "Python"
  else if ext = "java" then some "Java"
  else if ext = "cpp" then some "C++"
  else if ext = "c" then some "C"
  else if ext = "cs" then some "C#"
  else if ext = "go" then some "Go"
  else if ext = "rb" then some "Ruby"
  else if ext = "php" then some "PHP"
  else if ext = "swift" then some "Swift"
  else if ext = "kt" then some "Kotlin"
  else if ext = "rs" then some "Rust"
  else if ext = "scala" then some "Scala"
  else if ext = "r" then some "R"
  else if ext = "m" then some "Objective-C"
  else if ext = "mm" then some "Objective-C++"
  else if ext = "h" then some "C/C++ Header"
  else if ext = "hpp" then some "C++ Header"
  else if ext = "sh" then some "Shell"
  else if ext = "bash" then some "Bash"
  else if ext = "zsh" then some "Zsh"
  else if ext = "fish" then some "Fish"
  else if ext = "sql" then some "SQL"
  else if ext = "html" then some "HTML"
  else if ext = "css" then some "CSS"
  else if ext = "scss" then some "SCSS"
  else if ext = "less" then some "Less"
  else if ext = "json" then some "JSON"
  else if ext = "yaml" then some "YAML"
  else if ext = "yml" then some "YAML"
  else if ext = "toml" then some "TOML"
  else if ext = "md" then some "Markdown"
  else if ext = "rst" then some "reStructuredText"
  else if ext = "tex" then some "LaTeX"
  else if ext = "vue" then some "Vue"
  else if ext = "svelte" then some "Svelte"
  else if ext = "astro" then some "Astro"
  else none

/-- utils `getLanguageFromPath`: last dot-separated component of the path,
lower-cased, looked up in the language map, defaulting to `"Unknown"`. -/
def getLanguageFromPath (filePath : String) : String :=
  let extension := toLowerCase ((filePath.splitOn ".").getLastD "")
  (LANGUAGE_MAP extension).getD "Unknown"

/-- utils `validateAIResponse`: line number must be a positive number, the
review comment non-empty after trimming and at most 65536 characters long,
the file path a non-empty string, and the severity one of the three allowed
values. -/
def validateAIResponse (response : AIReviewResponse) : Bool :=
  match response.lineNumber with
  | none => false
  | some lineNumber =>
    if lineNumber ≤ 0 then false
    else if response.reviewComment.trim.length = 0 then false
    else if response.reviewComment.length > 65536 then false
    else if response.filePath = "" then false
    else if response.severity = "error" ∨ response.severity = "warning"
        ∨ response.severity = "info" then true
    else false

/-! ## services/ai.ts: createComment and its comment-body formatting

The body formatting re-implements the JavaScript regular expression
`/\x60\x60\x60(\w+)?\n([\s\S]*?)\x60\x60\x60/g` (a fenced code block: three
backticks, an optional run of word characters, a newline, then a lazily
matched body up to the next three backticks) as a left-to-right scanner,
which is exactly how a global `String.replace` proceeds. -/

/-- JavaScript word character (`\w`): ASCII letter, digit or underscore. -/
def isWordChar (c : Char) : Bool :=
  c.isAlphanum || c = '_'

/-- Scan for the closing three-backtick fence: returns the (lazily matched)
content before the first closing fence and the input after it. -/
def findClose : List Char → Option (List Char × List Char)
  | [] => none
  | c :: rest =>
    if ("```".data).isPrefixOf (c :: rest) then some ([], (c :: rest).drop 3)
    else
      match findClose rest with
      | some (content, r) => some (c :: content, r)
      | none => none

/-- Match the code-block pattern at the start of the input: on success,
returns the language group, the content group, and the input after the
match. -/
def matchFence (l : List Char) : Option (List Char × List Char × List Char) :=
  if ("```".data).isPrefixOf l then
    match (l.drop 3).dropWhile isWordChar with
    | '\n' :: body =>
      match findClose body with
      | some (content, rest) => some ((l.drop 3).takeWhile isWordChar, content, rest)
      | none => none
    | _ => none
  else none

/-- Helper for termination: `findClose` consumes at least the closing
fence. -/
theorem findClose_length :
    ∀ (l content r : List Char), findClose l = some (content, r) → r.length < l.length := by
  intro l
  induction l with
  | nil => intro content r h; simp [findClose] at h
  | cons c rest ih =>
    intro content r h
    rw [findClose] at h
    split at h
    · simp only [Option.some.injEq, Prod.mk.injEq] at h
      obtain ⟨-, h2⟩ := h
      subst h2
      simp only [List.length_drop, List.length_cons]
      omega
    · split at h
      · rename_i content2 r2 heq
        simp only [Option.some.injEq, Prod.mk.injEq] at h
        obtain ⟨-, h2⟩ := h
        have h3 := ih content2 r2 heq
        rw [h2] at h3
        simp only [List.length_cons]
        omega
      · exact absurd h (by simp)

/-- Helper for termination: dropping a prefix cannot lengthen a list. -/
theorem dropWhile_length_le (p : Char → Bool) :
    ∀ l : List Char, (l.dropWhile p).length ≤ l.length := by
  intro l
  induction l with
  | nil => simp [List.dropWhile]
  | cons c rest ih =>
    rw [List.dropWhile]
    cases p c with
    | true => simp only [List.length_cons]; omega
    | false => simp

/-- Helper for termination: a successful fence match consumes at least the
opening fence. -/
theorem matchFence_length :
    ∀ (l lang content rest : List Char),
      matchFence l = some (lang, content, rest) → rest.length < l.length := by
  intro l lang content rest h
  rw [matchFence] at h
  split at h
  · rename_i hpre
    split at h
    · rename_i body hbody
      split at h
      · rename_i content2 rest2 hfind
        simp only [Option.some.injEq, Prod.mk.injEq] at h
        obtain ⟨-, -, hrest⟩ := h
        subst hrest
        have h1 : rest2.length < body.length := findClose_length body content2 rest2 hfind
        have h2 : ('\n' :: body).length ≤ (l.drop 3).length := by
          rw [← hbody]
          exact dropWhile_length_le _ _
        have h3 : 3 ≤ l.length := by
          have := List.IsPrefix.length_le (List.isPrefixOf_iff_prefix.mp hpre)
          simpa using this
        simp only [List.length_cons, List.length_drop] at h2 ⊢
        omega
      · exact absurd h (by simp)
    · exact absurd h (by simp)
  · exact absurd h (by simp)

/-- Replacement text for one matched code block, following the replacer
callback: a block containing a suggestion marker is left unchanged,
otherwise the language tag is the matched one or, if absent, the one
detected from the file path, and the content is trimmed. -/
def fenceReplacement (detectedLang : String) (lang content : List Char) : List Char :=
  let matched := "```".data ++ lang ++ "\n".data ++ content ++ "```".data
  if infixOf ("```suggestion".data) matched then matched
  else
    let language := if lang.isEmpty then detectedLang.toLower.data else lang
    "```".data ++ language ++ "\n".data ++ (String.mk content).trim.data ++ "\n```".data

set_option linter.unusedVariables false in
/-- Global replacement of fenced code blocks, modelling
`formattedComment.replace(codeBlockRegex, ...)`. -/
def replaceCodeBlocks (detectedLang : String) (l : List Char) : List Char :=
  match l with
  | [] => []
  | c :: rest =>
    match h : matchFence (c :: rest) with
    | some (lang, content, rest2) =>
      fenceReplacement detectedLang lang content ++ replaceCodeBlocks detectedLang rest2
    | none => c :: replaceCodeBlocks detectedLang rest
termination_by l.length
decreasing_by
  · exact matchFence_length _ _ _ _ h
  · simp

/-- Whether the code-block pattern matches anywhere, modelling
`codeBlockRegex.test(...)`. -/
def testFence : List Char → Bool
  | [] => false
  | c :: rest => (matchFence (c :: rest)).isSome || testFence rest

/-- The full body-formatting step of `createComment`: rewrite fenced code
blocks only when the pattern is present. -/
def formatBody (file : DiffFile) (s : String) : String :=
  if testFence s.data then
    String.mk (replaceCodeBlocks (getLanguageFromPath (file.toPath.getD "")) s.data)
  else s

/-- Severity emoji prefix chosen by `createComment`. -/
def severityEmoji (severity : String) : String :=
  if severity = "error" then "⛔"
  else if severity = "warning" then "⚠️"
  else if severity = "info" then "ℹ️"
  else "💬"

/-- The note prepended to a comment whose line number was clamped. -/
def adjustmentNote (lineNumber : Int) : String :=
  "**Note: This comment was originally for line " ++ toString lineNumber ++
    " but was adjusted to fit in the viewable diff.**"

/-- The suggested-fix block appended when a finding carries a suggestion
with non-empty code (JavaScript truthiness of `suggestion.code`). -/
def suggestionText (aiResponse : AIReviewResponse) : String :=
  match aiResponse.suggestion with
  | some s =>
    if s.code = "" then ""
    else "\n\n**Suggested Fix**:\n" ++ s.description ++ "\n```suggestion\n" ++ s.code ++ "\n```"
  | none => ""

/-- services/ai.ts `createComment`: returns `none` when the file has no new
path or the line number is `NaN`; clamps an out-of-range line number into
the chunk's new-line range and prefixes the adjustment note; always attaches
the severity prefix, the optional suggestion block and the code-block
formatting, and comments on the `RIGHT` side of the new path. -/
def createComment (file : DiffFile) (chunk : Chunk) (aiResponse : AIReviewResponse) :
    Option ReviewComment :=
  match file.toPath with
  | none => none
  | some path =>
    match aiResponse.lineNumber with
    | none => none
    | some lineNumber =>
      if lineNumber < chunk.newStart ∨ lineNumber > chunk.newStart + chunk.newLines - 1 then
        let adjustedLineNumber :=
          min (max lineNumber chunk.newStart) (chunk.newStart + chunk.newLines - 1)
        let formatted0 := adjustmentNote lineNumber ++ "\n\n" ++ aiResponse.reviewComment
        let formatted1 := severityEmoji aiResponse.severity ++ " **" ++
          toUpperCase aiResponse.severity ++ "**\n\n" ++ formatted0
        let formatted2 := formatted1 ++ suggestionText aiResponse
        some { path := path, line := adjustedLineNumber,
               body := formatBody file formatted2, side := "RIGHT" }
      else
        let formatted1 := severityEmoji aiResponse.severity ++ " **" ++
          toUpperCase aiResponse.severity ++ "**\n\n" ++ aiResponse.reviewComment
        let formatted2 := formatted1 ++ suggestionText aiResponse
        some { path := path, line := lineNumber,
               body := formatBody file formatted2, side := "RIGHT" }

/-! ## main.ts: chunk merging (processFile, lines 209-267)

The merge loop walks the file's chunks left to right with an accumulator.
The size guard compares the combined `newLines + oldLines` of accumulator
and next chunk against `MAX_CHUNK_TOTAL_LINES * 0.8`; with the configured
ceiling of 2000 this is exactly the integer 1600. -/

/-- The merge-size guard bound: `MAX_CHUNK_TOTAL_LINES * 0.8 = 1600`. -/
def MERGE_SIZE_BOUND : Int := 1600

/-- The merge gap threshold: chunks more than 50 lines apart are not
merged. -/
def MERGE_GAP_THRESHOLD : Int := 50

/-- The line gap between the end of `cur` and the start of `next`:
`next.newStart - (currentEnd + 1)` with `currentEnd = cur.newStart +
cur.newLines - 1`. -/
def chunkGap (cur next : Chunk) : Int :=
  next.newStart - (cur.newStart + cur.newLines)

/-- The synthesized context lines for a merged gap: up to 5 placeholder
lines (`contextLines = min gap 5`). -/
def virtualGapChanges (gap : Int) : List Change :=
  if gap > 0 then
    let contextLines := min gap 5
    (List.range contextLines.toNat).map fun j =>
      { kind := ChangeKind.normal,
        content := "// Context line " ++ toString (j + 1) ++ " of " ++ toString contextLines }
  else []

/-- Merging one chunk into the accumulator: the accumulator's `newLines`
is re-derived so that it spans up to the merged chunk's end, `oldLines`
accumulates, and the change lists are concatenated around the virtual
context lines. -/
def mergeTwo (cur next : Chunk) : Chunk :=
  { cur with
    newLines := next.newStart + next.newLines - cur.newStart,
    oldLines := cur.oldLines + next.oldLines,
    changes := cur.changes ++ virtualGapChanges (chunkGap cur next) ++ next.changes }

/-- The merge decision for the accumulator `cur` and the next chunk: merge
exactly when the combined size stays within the bound and the gap is not
too large. -/
def shouldMerge (cur next : Chunk) : Bool :=
  ¬(cur.newLines + cur.oldLines + (next.newLines + next.oldLines) > MERGE_SIZE_BOUND)
    && ¬(chunkGap cur next > MERGE_GAP_THRESHOLD)

/-- The merge loop with the accumulator explicit. -/
def mergeChunksAux (cur : Chunk) : List Chunk → List Chunk
  | [] => [cur]
  | next :: rest =>
    if shouldMerge cur next then mergeChunksAux (mergeTwo cur next) rest
    else cur :: mergeChunksAux next rest

/-- main.ts chunk merging: fold the file's chunks into merged review
units. -/
def mergeChunks : List Chunk → List Chunk
  | [] => []
  | c :: rest => mergeChunksAux c rest

/-- All adjacent pairs of the hunk list have gap at most the merge
threshold. -/
def gapsWithinThreshold : List Chunk → Bool
  | [] => true
  | [_] => true
  | a :: b :: rest => (chunkGap a b ≤ MERGE_GAP_THRESHOLD) && gapsWithinThreshold (b :: rest)

/-- All adjacent pairs of the hunk list have gap beyond the merge
threshold. -/
def gapsBeyondThreshold : List Chunk → Bool
  | [] => true
  | [_] => true
  | a :: b :: rest => (chunkGap a b > MERGE_GAP_THRESHOLD) && gapsBeyondThreshold (b :: rest)

/-- Along the all-merging fold starting from `cur`, every single merge
keeps the combined `newLines + oldLines` size within the merge budget. -/
def sizesWithinBudget : Chunk → List Chunk → Bool
  | _, [] => true
  | cur, next :: rest =>
    (cur.newLines + cur.oldLines + (next.newLines + next.oldLines) ≤ MERGE_SIZE_BOUND)
      && sizesWithinBudget (mergeTwo cur next) rest

/-- Count of added lines in a chunk (lines of kind `add`). -/
def addedLineCount (chunk : Chunk) : Nat :=
  chunk.changes.countP fun ch => ch.kind = ChangeKind.add

/-- main.ts processFile, lines 289-298: a merged chunk is sent to the model
only when it is not too large and has a non-zero `newLines` count. -/
def chunkGetsPrompt (chunk : Chunk) : Bool :=
  !isChunkTooLarge chunk && !(chunk.newLines = 0)

/-- The merged chunks of a file for which a prompt is created and the model
is called. -/
def promptedChunks (file : DiffFile) : List Chunk :=
  (mergeChunks file.chunks).filter chunkGetsPrompt

/-! ## main.ts: deduplication (isCommentSimilar, lines 41-82, and the
filter in main, lines 638-664) -/

/-- Strip markdown punctuation and lower-case, modelling
`comment.replace(...markdown chars..., "").toLowerCase()`. -/
def cleanComment (s : String) : String :=
  String.mk ((s.data.filter fun c =>
    !(c = '*' ∨ c = '_' ∨ c = '~' ∨ c = '`' ∨ c = '#' ∨ c = '>')).map Char.toLower)

/-- The significant words of a cleaned comment: whitespace-separated words
longer than 3 characters, as a set (first occurrences kept). -/
def significantWords (s : String) : List String :=
  ((splitWords s).filter fun w => w.length > 3).dedup

/-- main.ts `isCommentSimilar`: shared-significant-word count, substring
containment, and - only when either cleaned comment is shorter than 40
characters - a word-overlap ratio compared against the similarity
threshold. The source compares `intersectionCount / smallerSetSize` against
the floating-point threshold `0.8` (resp. `0.6`); with both operands small
integers this is exactly the rational comparison `i / s > 8/10` (resp.
`6/10`), written here in cross-multiplied integer form
`10 * i > 8 * s` (resp. `6 * s`). -/
def isCommentSimilar (newComment existingComment : String) : Bool :=
  let cleanNew := cleanComment newComment
  let cleanExisting := cleanComment existingComment
  let shortCommentThreshold := 40
  let similarityThresholdTenths : Nat :=
    if cleanNew.length < shortCommentThreshold ∨ cleanExisting.length < shortCommentThreshold
    then 8 else 6
  let sharedWords := (splitWords cleanNew).filter fun word =>
    word.length > 3 && containsStr cleanExisting word
  if sharedWords.length ≥ 3 then true
  else if containsStr cleanNew cleanExisting || containsStr cleanExisting cleanNew then true
  else if cleanNew.length < shortCommentThreshold
      ∨ cleanExisting.length < shortCommentThreshold then
    let newWords := significantWords cleanNew
    let existingWords := significantWords cleanExisting
    let intersectionCount := newWords.countP fun word => word ∈ existingWords
    let smallerSetSize := min newWords.length existingWords.length
    smallerSetSize > 0 && (10 * intersectionCount > similarityThresholdTenths * smallerSetSize)
  else false

/-- Modelled from the spec (section 4.5, "DeduplicationEngine"): the fuzzy
similarity decision as the specification describes it - normalized
shared-significant-word count plus substring containment, with the
word-overlap-ratio threshold applied to every pair of comments: stricter
(0.8) when either comment is short, looser (0.6) for longer ones. This
definition follows the spec's words and is compared against the source's
`isCommentSimilar`, whose ratio check is only reachable for short
comments. -/
def isCommentSimilarSpec (newComment existingComment : String) : Bool :=
  let cleanNew := cleanComment newComment
  let cleanExisting := cleanComment existingComment
  let shortCommentThreshold := 40
  let similarityThresholdTenths : Nat :=
    if cleanNew.length < shortCommentThreshold ∨ cleanExisting.length < shortCommentThreshold
    then 8 else 6
  let sharedWords := (splitWords cleanNew).filter fun word =>
    word.length > 3 && containsStr cleanExisting word
  if sharedWords.length ≥ 3 then true
  else if containsStr cleanNew cleanExisting || containsStr cleanExisting cleanNew then true
  else
    let newWords := significantWords cleanNew
    let existingWords := significantWords cleanExisting
    let intersectionCount := newWords.countP fun word => word ∈ existingWords
    let smallerSetSize := min newWords.length existingWords.length
    smallerSetSize > 0 && (10 * intersectionCount > similarityThresholdTenths * smallerSetSize)

/-- An already-published comment as used for duplicate detection: its path,
line and body. -/
structure CommentItem where
  path : String
  line : Int
  body : String
deriving DecidableEq, Repr

/-- main.ts, lines 638-664: the per-candidate duplicate filter. A candidate
is dropped when an existing comment (live, by exact (path, line) match) or
a nearby existing/historical comment (same path, line distance < 10, similar
body) already covers it. `existingLines` models the `existingComments` map
of live (path, line) pairs; `allCommentItems` the combined live and
historical comment contents. -/
def dedupFilter (existingLines : List (String × Int)) (allCommentItems : List CommentItem)
    (comments : List ReviewComment) : List ReviewComment :=
  comments.filter fun comment =>
    if existingLines.any fun pl => pl.1 = comment.path && pl.2 = comment.line then false
    else
      let nearbyComments := allCommentItems.filter fun existing =>
        existing.path = comment.path && (existing.line - comment.line).natAbs < 10
      !(nearbyComments.any fun existing => isCommentSimilar comment.body existing.body)

/-! ## services/retry.ts: withRetry

The operation is modelled as a map from the attempt index (1-based) to that
attempt's outcome; a thrown error is `Except.error` carrying the error
message. The performed sleeps are returned alongside the result as an
explicit list of durations, in order. The claims exercise the default call
shape (no `apiName`), in which the rate-limiter spacing path of
`withRateLimit` is not taken, so no spacing delay is modelled. -/

/-- Config constants `MAX_RETRIES`, `RETRY_DELAY`, `MAX_RETRY_DELAY`. -/
def MAX_RETRIES : Nat := 3

/-- Config constant `RETRY_DELAY` (milliseconds). -/
def RETRY_DELAY : Int := 1000

/-- Config constant `MAX_RETRY_DELAY` (milliseconds). -/
def MAX_RETRY_DELAY : Int := 30000

/-- The rate-limit error signature test: the lower-cased message mentions a
rate limit, too many requests, or HTTP 429. -/
def isRateLimitError (msg : String) : Bool :=
  let errorMsg := toLowerCase msg
  containsStr errorMsg "rate limit" || containsStr errorMsg "too many requests"
    || containsStr errorMsg "429"

/-- The retry loop body: `attempt` is the current 1-based attempt index,
`remaining` how many further attempts the loop may still make, `delayMs`
the current base delay. Returns the final outcome and the list of performed
delays. -/
def withRetryGo (op : Nat → Except String α) (attempt : Nat) (remaining : Nat)
    (delayMs : Int) : Except String α × List Int :=
  match op attempt with
  | Except.ok v => (Except.ok v, [])
  | Except.error e =>
    let delayMs2 := if isRateLimitError e then min (delayMs * 3) MAX_RETRY_DELAY else delayMs
    match remaining with
    | 0 => (Except.error e, [])
    | r + 1 =>
      let result := withRetryGo op (attempt + 1) r delayMs2
      (result.1, delayMs2 * (attempt : Int) :: result.2)

/-- services/retry.ts `withRetry`: up to `maxRetries` attempts; after a
failed attempt that is not the last, sleep `delayMs * attempt` (the base
delay having been tripled, capped at `MAX_RETRY_DELAY`, when the failure
signature indicates rate limiting); after the last failed attempt, rethrow
the last error. (`maxRetries = 0` makes the source throw its initial `null`
error value; modelled as an error outcome.) -/
def withRetry (op : Nat → Except String α) (maxRetries : Nat) (delayMs : Int) :
    Except String α × List Int :=
  match maxRetries with
  | 0 => (Except.error "null", [])
  | m + 1 => withRetryGo op 1 m delayMs

/-! ## services/ai.ts: getOpenAIResponse and getAIResponse as exception-flow
models

The surrounding JavaScript is `try`/`catch` over awaited calls; this is
modelled in `Except String`, with `tryCatchE` the `try`/`catch` form. The
external, non-deterministic ingredients are oracle parameters:

* `apiCall i`  - the outcome of the `openai.chat.completions.create` call
  on attempt `i` (inside `withRetry`): an error models a thrown HTTP/API
  failure; `ok none` models a response whose first choice or content is
  missing (so that the content extraction yields nothing or throws - both
  are inside the same `try`); `ok (some s)` a response with text `s`;
* `parse s` - `JSON.parse(s)` on a `{"reviews": [...]}` shaped value,
  either a thrown `SyntaxError` or the parsed reviews (`none` models a
  parsed object without a `reviews` field, `parsedResponse.reviews || []`);
* `extractReviewsRegex s` - group 1 of the first salvage regular
  expression over `s`, `none` when it does not match;
* `objectMatches s` - the matches of the `/\x7b[^\x7b\x7d]*\x7d/g` salvage
  regular expression, `none` when there are none;
* `parseReview s` - `JSON.parse` of one extracted object string.

The theorems quantify over every behaviour of these oracles. -/

/-- Exception handling in the `Except` monad (JavaScript `try`/`catch`). -/
def tryCatchE (body : Except String α) (handler : String → Except String α) :
    Except String α :=
  match body with
  | Except.ok v => Except.ok v
  | Except.error e => handler e

/-- The salvage ladder of `getOpenAIResponse` (its inner
`try { ... } catch (salvageError) {}` block followed by `return null`): the
first regular expression's group is re-wrapped and parsed (a parse failure
here aborts the whole block to the salvage catch); otherwise every
individually well-formed extracted object that validates is kept. Returns
the salvaged reviews, or `none` for "fall through to `return null`". -/
def salvageParse (parse : String → Except String (Option (List AIReviewResponse)))
    (extractReviewsRegex : String → Option String)
    (objectMatches : String → Option (List String))
    (parseReview : String → Except String AIReviewResponse)
    (content : String) : Except String (Option (List AIReviewResponse)) :=
  tryCatchE
    (do
      let contentNoNewlines := content.replace "\n" " "
      let firstTry : Option (List AIReviewResponse) ←
        match extractReviewsRegex contentNoNewlines with
        | some grp =>
          if grp ≠ "" then do
            let parsedSalvaged ← parse ("\x7b\"reviews\":[" ++ grp ++ "]\x7d")
            match parsedSalvaged with
            | some reviews =>
              if reviews.length > 0 then
                pure (some (reviews.filter validateAIResponse))
              else pure none
            | none => pure none
          else pure none
        | none => pure none
      match firstTry with
      | some reviews => pure (some reviews)
      | none =>
        match objectMatches content with
        | some objStrs =>
          if objStrs.length > 0 then
            let validObjects := objStrs.foldr
              (fun objStr acc =>
                match parseReview objStr with
                | Except.ok obj => if validateAIResponse obj then obj :: acc else acc
                | Except.error _ => acc)
              []
            if validObjects.length > 0 then pure (some validObjects) else pure none
          else pure none
        | none => pure none)
    (fun _ => Except.ok none)

/-- services/ai.ts `getOpenAIResponse`: the whole body is one `try` whose
`catch` logs and returns `null`; inside, the API call runs under
`withRetry`, an empty content returns `null`, a successful parse returns
the validated reviews, and a parse failure runs the salvage ladder. -/
def getOpenAIResponse (apiCall : Nat → Except String (Option String))
    (parse : String → Except String (Option (List AIReviewResponse)))
    (extractReviewsRegex : String → Option String)
    (objectMatches : String → Option (List String))
    (parseReview : String → Except String AIReviewResponse) :
    Except String (Option (List AIReviewResponse)) :=
  tryCatchE
    (do
      let contentOpt ← (withRetry apiCall MAX_RETRIES RETRY_DELAY).1
      match contentOpt with
      | none => pure none
      | some content =>
        let content := content.trim
        if content = "" then pure none
        else
          tryCatchE
            (do
              let parsed ← parse content
              let reviews := parsed.getD []
              pure (some (reviews.filter validateAIResponse)))
            (fun _ =>
              salvageParse parse extractReviewsRegex objectMatches parseReview content))
    (fun _ => Except.ok none)

/-- services/ai.ts `getAIResponse`: a `try` that first consults the cache
(`cacheLookup`; any value or a thrown cache error), then calls the provider
function under `withRetry`, then stores a non-null result in the cache
(`cacheStore`, which may also throw); the `catch` logs and returns `null`.
`providerCall i` is the outcome of the `i`-th `withRetry` attempt of
`getOpenAIResponse`/`getAnthropicResponse` (which themselves never throw,
but the model quantifies over every behaviour). -/
def getAIResponse (cacheLookup : Except String (Option (List AIReviewResponse)))
    (providerCall : Nat → Except String (Option (List AIReviewResponse)))
    (cacheStore : Except String Unit) :
    Except String (Option (List AIReviewResponse)) :=
  tryCatchE
    (do
      let cached ← cacheLookup
      match cached with
      | some cachedResponse => pure (some cachedResponse)
      | none => do
        let response ← (withRetry providerCall MAX_RETRIES RETRY_DELAY).1
        match response with
        | some r => do
          let _ ← cacheStore
          pure (some r)
        | none => pure none)
    (fun _ => Except.ok none)

/-! ## services/github.ts: createReviewComment (the publisher) -/

/-- The publish outcome the source logs: success and failure counts and the
failed comments. -/
structure PublishResult where
  successCount : Nat
  failureCount : Nat
  failedComments : List ReviewComment
deriving DecidableEq, Repr

/-- The per-batch truthiness check (`!comment.path || !comment.body ||
!comment.line` drops a comment). -/
def basicValidComment (c : ReviewComment) : Bool :=
  !(c.path = "") && !(c.body = "") && !(c.line = 0)

/-- Batch size used by the publisher. -/
def BATCH_SIZE : Nat := 10

/-- Batch accumulator: `countdown` is how many more comments the current
batch may take, `current` the current batch in reverse order. -/
def toBatchesGo (countdown : Nat) (current : List ReviewComment) :
    List ReviewComment → List (List ReviewComment)
  | [] => [current.reverse]
  | c :: rest =>
    match countdown with
    | 0 => current.reverse :: toBatchesGo (BATCH_SIZE - 1) [c] rest
    | k + 1 => toBatchesGo k (c :: current) rest

/-- Split a list into consecutive batches of `BATCH_SIZE` (the source's
`for (let i = 0; i < n; i += BATCH_SIZE) batches.push(slice(i, i + 10))`
loop, as structural recursion). -/
def toBatches (l : List ReviewComment) : List (List ReviewComment) :=
  match l with
  | [] => []
  | c :: rest => toBatchesGo (BATCH_SIZE - 1) [c] rest

/-- The batch submission loop: `batchFails i` is whether the GitHub
`createReview` call for the `i`-th batch throws. State is (successCount,
failureCount, failedComments). An all-invalid batch is skipped; a failing
batch counts the whole batch as failed; a successful batch counts its valid
comments as successes and its filtered-out comments as failures. -/
def runBatches (batchFails : Nat → Bool) : Nat → (Nat × Nat × List ReviewComment) →
    List (List ReviewComment) → Nat × Nat × List ReviewComment
  | _, st, [] => st
  | i, (s, f, fc), batch :: rest =>
    let validBatch := batch.filter basicValidComment
    let st2 :=
      if validBatch.length = 0 then (s, f, fc)
      else if batchFails i then (s, f + batch.length, fc ++ batch)
      else if validBatch.length < batch.length then
        (s + validBatch.length, f + (batch.length - validBatch.length),
          fc ++ batch.filter fun comment =>
            !(validBatch.any fun valid =>
              valid.path = comment.path && valid.line = comment.line
                && valid.body = comment.body))
      else (s + validBatch.length, f, fc)
    runBatches batchFails (i + 1) st2 rest

/-- services/github.ts `createReviewComment`, the decision structure after
the commit and diff fetches succeed. `validate c` models the enhanced
pre-publish re-validation of comment `c` against the freshly fetched diff
(`none` = dropped, `some c2` = kept, possibly re-pointed); it is an oracle
because it consults the live diff and file contents. If no comment survives
validation the function logs and returns normally; otherwise the batches
are submitted, and an error is thrown exactly when no comment succeeded
although a non-empty list was submitted. -/
def createReviewComment (validate : ReviewComment → Option ReviewComment)
    (batchFails : Nat → Bool) (comments : List ReviewComment) :
    Except String PublishResult :=
  let filteredComments := comments.filterMap validate
  if filteredComments.length = 0 then Except.ok ⟨0, 0, []⟩
  else
    let result := runBatches batchFails 0 (0, 0, []) (toBatches filteredComments)
    if result.1 = 0 ∧ comments.length > 0 then Except.error "Failed to create any comments"
    else Except.ok ⟨result.1, result.2.1, result.2.2⟩

/-! ## Sample inputs for witnesses and counterexamples -/

/-- A diff chunk spanning new lines 10-25 (the spec's clamping example). -/
def sampleChunk1025 : Chunk :=
  { newStart := 10, newLines := 16, oldStart := 10, oldLines := 16,
    changes := [{ kind := ChangeKind.add, content := "x" }] }

/-- A small file whose new path is `a.ts`. -/
def sampleFile : DiffFile :=
  { toPath := some "a.ts", fromPath := some "a.ts", chunks := [sampleChunk1025],
    additions := 1, deletions := 0 }

/-- A finding whose reported line (999) lies outside the 10-25 unit. -/
def sampleResponse999 : AIReviewResponse :=
  { lineNumber := some 999, reviewComment := "X", severity := "warning",
    filePath := "a.ts", suggestion := none }

/-- A finding whose line number failed the `Number(...)` coercion
(`lineNumber = "abc"`). -/
def sampleResponseNaN : AIReviewResponse :=
  { lineNumber := none, reviewComment := "x", severity := "info",
    filePath := "a.ts", suggestion := none }

/-- A finding with an in-range line. -/
def sampleResponse12 : AIReviewResponse :=
  { lineNumber := some 12, reviewComment := "X", severity := "info",
    filePath := "a.ts", suggestion := none }

/-- A concrete publishable comment on `a.ts:3`. -/
def sampleComment : ReviewComment :=
  { path := "a.ts", line := 3, body := "this variable is unused", side := "RIGHT" }

/-- A small hunk over new lines 1-5. -/
def sampleHunkA : Chunk :=
  { newStart := 1, newLines := 5, oldStart := 1, oldLines := 5,
    changes := [{ kind := ChangeKind.add, content := "x" }] }

/-- A small hunk close behind `sampleHunkA` (gap 2). -/
def sampleHunkNear : Chunk :=
  { newStart := 8, newLines := 4, oldStart := 8, oldLines := 4,
    changes := [{ kind := ChangeKind.add, content := "y" }] }

/-- A small hunk far behind `sampleHunkA` (gap 194). -/
def sampleHunkFar : Chunk :=
  { newStart := 200, newLines := 4, oldStart := 200, oldLines := 4,
    changes := [{ kind := ChangeKind.add, content := "z" }] }

/-- A pure-deletion hunk with one context line on the new side: it has one
new-side line (`newLines = 1`) but zero added lines. -/
def sampleDeletionHunk : Chunk :=
  { newStart := 1, newLines := 1, oldStart := 1, oldLines := 3,
    changes := [{ kind := ChangeKind.normal, content := "kept line" },
                { kind := ChangeKind.del, content := "removed line" },
                { kind := ChangeKind.del, content := "also removed" }] }

/-- A file containing only the pure-deletion hunk. -/
def sampleDeletionFile : DiffFile :=
  { toPath := some "a.ts", fromPath := some "a.ts", chunks := [sampleDeletionHunk],
    additions := 0, deletions := 2 }

/-- A hunk with no new-side lines at all. -/
def sampleZeroNewHunk : Chunk :=
  { newStart := 10, newLines := 0, oldStart := 10, oldLines := 2,
    changes := [{ kind := ChangeKind.del, content := "gone" },
                { kind := ChangeKind.del, content := "gone too" }] }

/-- A file containing only the hunk with no new-side lines. -/
def sampleZeroNewFile : DiffFile :=
  { toPath := some "a.ts", fromPath := some "a.ts", chunks := [sampleZeroNewHunk],
    additions := 0, deletions := 2 }

/-- A long comment (62 characters, all significant words distinct) sharing
exactly two significant words with `sampleLongCommentB`. -/
def sampleLongCommentA : String :=
  "consider refactoring duplication xx yy zz aa bb cc dd ee ff"

/-- A long comment (50 characters) with only two significant words, both
shared with `sampleLongCommentA`. -/
def sampleLongCommentB : String :=
  "consider refactoring zz yy xx ww vv uu tt ss rr qq"

/-! ## Theorems -/

/-- Helper: a string of length zero is the empty string. -/
theorem string_eq_empty_of_length_eq_zero : ∀ {s : String}, s.length = 0 → s = "" := by
  intro s h
  cases s with
  | mk data =>
    have hd : data = [] := by
      simp [String.length] at h
      exact h
    rw [hd]

/-- C6: the validator accepts a model finding if and only if its line
number parses as a positive number, its comment body is non-empty (after
trimming) and at most GitHub's maximum comment length, its file path is a
non-empty string, and its severity is one of error/warning/info; moreover a
finding whose line number does not parse (`Number(...)` is `NaN`, e.g.
`lineNumber = "abc"`) is rejected by the validator and makes comment
creation return `null`, with no exception (both functions are total). -/
theorem validateAIResponse_accepts_iff :
    (∀ r : AIReviewResponse,
      validateAIResponse r = true ↔
        (∃ n, r.lineNumber = some n ∧ 0 < n) ∧
        r.reviewComment.trim ≠ "" ∧
        r.reviewComment.length ≤ 65536 ∧
        r.filePath ≠ "" ∧
        (r.severity = "error" ∨ r.severity = "warning" ∨ r.severity = "info")) ∧
    (∀ (file : DiffFile) (chunk : Chunk) (r : AIReviewResponse),
      r.lineNumber = none →
        validateAIResponse r = false ∧ createComment file chunk r = none) := by
  constructor
  · intro r
    cases h : r.lineNumber with
    | none => simp [validateAIResponse, h]
    | some n =>
      simp only [validateAIResponse, h]
      constructor
      · intro hv
        split_ifs at hv with h1 h2 h3 h4 h5
        exact ⟨⟨n, rfl, by omega⟩,
          fun he => h2 (by rw [he]; rfl),
          by omega, h4, h5⟩
      · rintro ⟨⟨n2, hn2, hpos⟩, hne, hlen, hpath, hsev⟩
        injection hn2 with hn2
        subst hn2
        rw [if_neg (by omega), if_neg (fun hz => hne (string_eq_empty_of_length_eq_zero hz)),
          if_neg (by omega), if_neg hpath, if_pos hsev]
  · intro file chunk r h
    refine ⟨by simp [validateAIResponse, h], ?_⟩
    unfold createComment
    cases hto : file.toPath with
    | none => rfl
    | some path => rw [h]

/-- Witness for C6: the concrete finding of the spec's example, whose
`lineNumber` is the string `"abc"` (so `Number(...)` is `NaN`), is rejected
by the validator and dropped by comment creation. -/
theorem validateAIResponse_accepts_iff_witness :
    validateAIResponse sampleResponseNaN = false ∧
      createComment sampleFile sampleChunk1025 sampleResponseNaN = none :=
  validateAIResponse_accepts_iff.2 sampleFile sampleChunk1025 sampleResponseNaN rfl

/-- C10: every comment `createComment` produces carries `side = "RIGHT"`
and the file's new path; a file without a new path yields no comment at
all. -/
theorem createComment_side_right_and_new_path :
    (∀ (file : DiffFile) (chunk : Chunk) (r : AIReviewResponse) (c : ReviewComment),
      createComment file chunk r = some c →
        c.side = "RIGHT" ∧ file.toPath = some c.path) ∧
    (∀ (file : DiffFile) (chunk : Chunk) (r : AIReviewResponse),
      file.toPath = none → createComment file chunk r = none) := by
  constructor
  · intro file chunk r c h
    cases hto : file.toPath with
    | none =>
      simp only [createComment, hto] at h
      exact absurd h (by simp)
    | some path =>
      cases hln : r.lineNumber with
      | none =>
        simp only [createComment, hto, hln] at h
        exact absurd h (by simp)
      | some n =>
        simp only [createComment, hto, hln] at h
        split at h <;>
          · simp only [Option.some.injEq] at h
            subst h
            exact ⟨rfl, rfl⟩
  · intro file chunk r h
    rw [createComment.eq_def, h]

/-- Witness for C10: a concrete in-range finding produces a comment on the
right side of the new path. -/
theorem createComment_side_right_and_new_path_witness :
    ∃ c : ReviewComment, (c.side = "RIGHT" ∧ sampleFile.toPath = some c.path) :=
  match hc : createComment sampleFile sampleChunk1025 sampleResponse12 with
  | some c => ⟨c, createComment_side_right_and_new_path.1 sampleFile sampleChunk1025
      sampleResponse12 c hc⟩
  | none => absurd hc (by decide)

/-- Helper: a list is a prefix of itself followed by anything. -/
theorem isPrefixOf_append_self : ∀ (l b : List Char), l.isPrefixOf (l ++ b) = true := by
  intro l b
  induction l with
  | nil => simp [List.isPrefixOf]
  | cons c rest ih => simp [List.isPrefixOf, ih]

/-- Helper: `infixOf` finds an explicitly sandwiched occurrence. -/
theorem infixOf_sandwich : ∀ (a n b : List Char), infixOf n (a ++ (n ++ b)) = true := by
  intro a n b
  induction a with
  | nil =>
    simp only [List.nil_append]
    cases hn : n ++ b with
    | nil =>
      have hnil : n = [] := by
        cases n with
        | nil => rfl
        | cons x xs => simp at hn
      rw [hnil]
      rfl
    | cons c rest =>
      rw [infixOf, ← hn, isPrefixOf_append_self]
      simp
  | cons a0 a1 ih =>
    rw [List.cons_append, infixOf, ih]
    simp

/-- Helper: the fence pattern cannot match at a non-backtick character. -/
theorem matchFence_ne_backtick {c : Char} (hc : c ≠ '`') (l : List Char) :
    matchFence (c :: l) = none := by
  have hpre : ("```".data).isPrefixOf (c :: l) = false := by
    have h3 : "```".data = '`' :: '`' :: '`' :: [] := rfl
    rw [h3, List.isPrefixOf]
    simp [Ne.symm hc]
  rw [matchFence, hpre]
  rfl

/-- Helper: replacing code blocks leaves a backtick-free prefix
untouched. -/
theorem replaceCodeBlocks_no_backtick_prefix (d : String) :
    ∀ (p s : List Char), (∀ c ∈ p, c ≠ '`') →
      replaceCodeBlocks d (p ++ s) = p ++ replaceCodeBlocks d s := by
  intro p
  induction p with
  | nil => intro s _; simp
  | cons c p1 ih =>
    intro s h
    have hc : c ≠ '`' := h c (by simp)
    have hrest : ∀ x ∈ p1, x ≠ '`' := fun x hx => h x (by simp [hx])
    rw [List.cons_append, replaceCodeBlocks]
    split
    · rename_i lang content rest2 h2
      rw [matchFence_ne_backtick hc] at h2
      exact absurd h2 (by simp)
    · rw [ih s hrest]
      rfl

/-- Helper: decimal digit characters are never a backtick. -/
theorem digitChar_ne_backtick (n : Nat) : Nat.digitChar n ≠ '`' := by
  match n with
  | 0 | 1 | 2 | 3 | 4 | 5 | 6 | 7 | 8 | 9 | 10 | 11 | 12 | 13 | 14 | 15 => decide
  | m + 16 =>
    have h : Nat.digitChar (m + 16) = Char.ofNat 42 := rfl
    rw [h]
    decide

/-- Helper: the digit accumulator of `Nat.toDigitsCore` never produces a
backtick. -/
theorem toDigitsCore_ne_backtick (b : Nat) :
    ∀ (fuel n : Nat) (ds : List Char), (∀ c ∈ ds, c ≠ '`') →
      ∀ c ∈ Nat.toDigitsCore b fuel n ds, c ≠ '`' := by
  intro fuel
  induction fuel with
  | zero =>
    intro n ds h c hc
    rw [Nat.toDigitsCore] at hc
    exact h c hc
  | succ f ih =>
    intro n ds h c hc
    rw [Nat.toDigitsCore] at hc
    split at hc
    · rcases List.mem_cons.mp hc with h1 | h1
      · rw [h1]; exact digitChar_ne_backtick _
      · exact h c h1
    · refine ih _ _ (fun x hx => ?_) c hc
      rcases List.mem_cons.mp hx with h1 | h1
      · rw [h1]; exact digitChar_ne_backtick _
      · exact h x h1

/-- Helper: the decimal representation of a natural number contains no
backtick. -/
theorem natRepr_ne_backtick (n : Nat) : ∀ c ∈ (Nat.repr n).data, c ≠ '`' := by
  intro c hc
  have hd : (Nat.repr n).data = Nat.toDigitsCore 10 (n + 1) n [] := rfl
  rw [hd] at hc
  exact toDigitsCore_ne_backtick 10 (n + 1) n [] (by simp) c hc

/-- Helper: the decimal representation of an integer contains no
backtick. -/
theorem intToString_ne_backtick (n : Int) : ∀ c ∈ (toString n).data, c ≠ '`' := by
  cases n with
  | ofNat m =>
    have hd : toString (Int.ofNat m) = Nat.repr m := rfl
    rw [hd]
    exact natRepr_ne_backtick m
  | negSucc m =>
    have hd : toString (Int.negSucc m) = "-" ++ Nat.repr (m + 1) := rfl
    rw [hd]
    intro c hc
    rw [String.data_append] at hc
    rcases List.mem_append.mp hc with h1 | h1
    · have : c = Char.ofNat 45 := by simpa using h1
      rw [this]; decide
    · exact natRepr_ne_backtick (m + 1) c h1

/-- Helper: backtick-freeness is preserved by string append. -/
theorem ne_backtick_append {a b : String}
    (ha : ∀ c ∈ a.data, c ≠ '`') (hb : ∀ c ∈ b.data, c ≠ '`') :
    ∀ c ∈ (a ++ b).data, c ≠ '`' := by
  intro c hc
  rw [String.data_append] at hc
  rcases List.mem_append.mp hc with h | h
  · exact ha c h
  · exact hb c h

/-- Helper: an infix occurrence given by an explicit decomposition. -/
theorem infixOf_of_decomposition {n L a b : List Char} (hL : L = a ++ (n ++ b)) :
    infixOf n L = true := by
  rw [hL]
  exact infixOf_sandwich a n b

/-- Helper: the body formatting keeps any substring of a backtick-free
prefix: the code-block rewriting can only touch the part after the
prefix. -/
theorem containsStr_formatBody (file : DiffFile) (p t note : String)
    (hp : ∀ c ∈ p.data, c ≠ '`')
    (a b : List Char) (hdecomp : p.data = a ++ (note.data ++ b)) :
    containsStr (formatBody file (p ++ t)) note = true := by
  unfold formatBody
  split
  · show infixOf note.data
      (replaceCodeBlocks (getLanguageFromPath (file.toPath.getD "")) (p ++ t).data) = true
    rw [String.data_append, replaceCodeBlocks_no_backtick_prefix _ p.data t.data hp]
    refine infixOf_of_decomposition (a := a)
      (b := b ++ replaceCodeBlocks (getLanguageFromPath (file.toPath.getD "")) t.data) ?_
    rw [hdecomp]
    simp [List.append_assoc]
  · show infixOf note.data (p ++ t).data = true
    rw [String.data_append]
    refine infixOf_of_decomposition (a := a) (b := b ++ t.data) ?_
    rw [hdecomp]
    simp [List.append_assoc]

/-- Helper: the adjustment note contains no backtick. -/
theorem adjustmentNote_ne_backtick (n : Int) :
    ∀ c ∈ (adjustmentNote n).data, c ≠ '`' := by
  unfold adjustmentNote
  refine ne_backtick_append (ne_backtick_append ?_ ?_) ?_
  · decide
  · exact intToString_ne_backtick n
  · decide

/-- Helper: no character of the clamped-comment prefix (emoji, upper-cased
severity marker, adjustment note, separators) is a backtick, for the three
valid severities. -/
theorem clampedPrefix_ne_backtick (severity : String) (n : Int)
    (hsev : severity = "error" ∨ severity = "warning" ∨ severity = "info") :
    ∀ c ∈ (severityEmoji severity ++ " **" ++ toUpperCase severity ++ "**\n\n" ++
      adjustmentNote n ++ "\n\n").data, c ≠ '`' := by
  have hemoji : ∀ c ∈ (severityEmoji severity).data, c ≠ '`' := by
    rcases hsev with h | h | h <;> rw [h] <;> decide
  have hupper : ∀ c ∈ (toUpperCase severity).data, c ≠ '`' := by
    rcases hsev with h | h | h <;> rw [h] <;> decide
  exact ne_backtick_append (ne_backtick_append (ne_backtick_append
    (ne_backtick_append (ne_backtick_append hemoji (by decide)) hupper) (by decide))
    (adjustmentNote_ne_backtick n)) (by decide)

/-- C2: a finding whose line number parses but lies outside the unit's
new-line range `[newStart, newStart + newLines - 1]` is not dropped by
comment creation (given the file has a new path and the finding carries one
of the three valid severities, as every validated finding does): the
resulting comment's line is the original line clamped to the nearest
boundary of the range, and its body contains the note that the original
line was adjusted. -/
theorem createComment_clamps_out_of_range :
    ∀ (file : DiffFile) (chunk : Chunk) (r : AIReviewResponse) (path : String) (n : Int),
      file.toPath = some path →
      r.lineNumber = some n →
      (n < chunk.newStart ∨ n > chunk.newStart + chunk.newLines - 1) →
      (r.severity = "error" ∨ r.severity = "warning" ∨ r.severity = "info") →
      ∃ c : ReviewComment,
        createComment file chunk r = some c ∧
        c.line = min (max n chunk.newStart) (chunk.newStart + chunk.newLines - 1) ∧
        containsStr c.body (adjustmentNote n) = true := by
  intro file chunk r path n hto hln hrange hsev
  have hbody :
      containsStr
        (formatBody file
          (severityEmoji r.severity ++ " **" ++ toUpperCase r.severity ++ "**\n\n" ++
            (adjustmentNote n ++ "\n\n" ++ r.reviewComment) ++ suggestionText r))
        (adjustmentNote n) = true := by
    have heq :
        severityEmoji r.severity ++ " **" ++ toUpperCase r.severity ++ "**\n\n" ++
            (adjustmentNote n ++ "\n\n" ++ r.reviewComment) ++ suggestionText r =
          (severityEmoji r.severity ++ " **" ++ toUpperCase r.severity ++ "**\n\n" ++
            adjustmentNote n ++ "\n\n") ++ (r.reviewComment ++ suggestionText r) :=
      String.ext (by simp [String.data_append, List.append_assoc])
    rw [heq]
    refine containsStr_formatBody file _ _ _ (clampedPrefix_ne_backtick r.severity n hsev)
      ((severityEmoji r.severity ++ " **" ++ toUpperCase r.severity ++ "**\n\n").data)
      ("\n\n".data) ?_
    simp [String.data_append, List.append_assoc]
  refine ⟨{ path := path,
            line := min (max n chunk.newStart) (chunk.newStart + chunk.newLines - 1),
            body := formatBody file
              (severityEmoji r.severity ++ " **" ++ toUpperCase r.severity ++ "**\n\n" ++
                (adjustmentNote n ++ "\n\n" ++ r.reviewComment) ++ suggestionText r),
            side := "RIGHT" }, ?_, rfl, hbody⟩
  simp only [createComment, hto, hln]
  rw [if_pos hrange]

/-- Witness for C2, the spec's example: against the unit spanning new lines
10-25, a finding on line 999 yields a comment clamped to line 25 whose body
contains the adjustment note. -/
theorem createComment_clamps_out_of_range_witness :
    ∃ c : ReviewComment,
      createComment sampleFile sampleChunk1025 sampleResponse999 = some c ∧
      c.line = min (max 999 sampleChunk1025.newStart)
        (sampleChunk1025.newStart + sampleChunk1025.newLines - 1) ∧
      containsStr c.body (adjustmentNote 999) = true :=
  createComment_clamps_out_of_range sampleFile sampleChunk1025 sampleResponse999
    "a.ts" 999 rfl rfl (by decide) (by decide)

/-- Helper: merging keeps the accumulator's start and moves its end to the
merged hunk's end, so the gap the fold computes next equals the raw gap
between the underlying adjacent hunks. -/
theorem chunkGap_mergeTwo (cur b c : Chunk) :
    chunkGap (mergeTwo cur b) c = chunkGap b c := by
  simp only [chunkGap, mergeTwo]
  ring

/-- Helper: when every adjacent gap is within the threshold and every merge
stays within the size budget, the fold merges everything into one unit. -/
theorem mergeChunksAux_all_merge :
    ∀ (rest : List Chunk) (cur : Chunk),
      gapsWithinThreshold (cur :: rest) = true →
      sizesWithinBudget cur rest = true →
      (mergeChunksAux cur rest).length = 1 := by
  intro rest
  induction rest with
  | nil => intro cur _ _; rfl
  | cons next rest2 ih =>
    intro cur hg hs
    rw [gapsWithinThreshold] at hg
    rw [sizesWithinBudget] at hs
    simp only [Bool.and_eq_true, decide_eq_true_eq] at hg hs
    have hmerge : shouldMerge cur next = true := by
      simp only [shouldMerge, Bool.and_eq_true, decide_eq_true_eq]
      exact ⟨by omega, by omega⟩
    rw [mergeChunksAux, if_pos hmerge]
    refine ih (mergeTwo cur next) ?_ hs.2
    cases rest2 with
    | nil => rfl
    | cons c rest3 =>
      rw [gapsWithinThreshold] at hg ⊢
      rw [chunkGap_mergeTwo]
      simp only [Bool.and_eq_true, decide_eq_true_eq] at hg ⊢
      exact hg.2

/-- Helper: when every adjacent gap exceeds the threshold, the fold never
merges and emits one unit per hunk. -/
theorem mergeChunksAux_no_merge :
    ∀ (rest : List Chunk) (cur : Chunk),
      gapsBeyondThreshold (cur :: rest) = true →
      (mergeChunksAux cur rest).length = rest.length + 1 := by
  intro rest
  induction rest with
  | nil => intro cur _; rfl
  | cons next rest2 ih =>
    intro cur hg
    rw [gapsBeyondThreshold] at hg
    simp only [Bool.and_eq_true, decide_eq_true_eq] at hg
    have hmerge : shouldMerge cur next = false := by
      simp only [shouldMerge]
      have : ¬ (¬ chunkGap cur next > MERGE_GAP_THRESHOLD) := by omega
      simp [this]
    rw [mergeChunksAux, if_neg (by rw [hmerge]; simp)]
    simp only [List.length_cons]
    rw [ih next hg.2]

/-- C3: (a) for a hunk sequence whose adjacent gaps stay within the 50-line
threshold and whose merges all stay within 80% of the chunk ceiling (1600
lines), the merger produces exactly one review unit; (b) when every
adjacent gap exceeds the threshold it produces exactly one unit per hunk;
(c) two adjacent hunks are merged if and only if the combined
`newLines + oldLines` size stays within the budget and the gap is at most
the threshold. -/
theorem mergeChunks_gap_and_size_conditions :
    (∀ (c : Chunk) (cs : List Chunk),
      gapsWithinThreshold (c :: cs) = true → sizesWithinBudget c cs = true →
      (mergeChunks (c :: cs)).length = 1) ∧
    (∀ cs : List Chunk, gapsBeyondThreshold cs = true →
      (mergeChunks cs).length = cs.length) ∧
    (∀ a b : Chunk,
      (mergeChunks [a, b]).length = 1 ↔
        (a.newLines + a.oldLines + (b.newLines + b.oldLines) ≤ MERGE_SIZE_BOUND ∧
          chunkGap a b ≤ MERGE_GAP_THRESHOLD)) := by
  refine ⟨?_, ?_, ?_⟩
  · intro c cs hg hs
    exact mergeChunksAux_all_merge cs c hg hs
  · intro cs hg
    cases cs with
    | nil => rfl
    | cons c rest =>
      rw [mergeChunks]
      rw [mergeChunksAux_no_merge rest c hg]
      rfl
  · intro a b
    by_cases hm : shouldMerge a b = true
    · have h1 : mergeChunks [a, b] = [mergeTwo a b] := by
        rw [mergeChunks, mergeChunksAux, if_pos hm]
        rfl
      rw [h1]
      simp only [shouldMerge, Bool.and_eq_true, decide_eq_true_eq] at hm
      exact iff_of_true rfl ⟨by omega, by omega⟩
    · have hm3 : shouldMerge a b = false := by
        revert hm
        cases shouldMerge a b <;> simp
      have h1 : mergeChunks [a, b] = [a, b] := by
        rw [mergeChunks, mergeChunksAux, if_neg (by rw [hm3]; simp)]
        rfl
      rw [h1]
      refine iff_of_false (by simp) ?_
      rintro ⟨h1s, h2g⟩
      have htrue : shouldMerge a b = true := by
        simp only [shouldMerge, Bool.and_eq_true, decide_eq_true_eq]
        exact ⟨by omega, by omega⟩
      rw [hm3] at htrue
      exact absurd htrue (by simp)

/-- Witness for C3: two close small hunks merge into one unit; two hunks
194 lines apart stay two units. -/
theorem mergeChunks_gap_and_size_conditions_witness :
    (mergeChunks [sampleHunkA, sampleHunkNear]).length = 1 ∧
      (mergeChunks [sampleHunkA, sampleHunkFar]).length = 2 :=
  ⟨mergeChunks_gap_and_size_conditions.1 sampleHunkA [sampleHunkNear]
      (by decide) (by decide),
    mergeChunks_gap_and_size_conditions.2.1 [sampleHunkA, sampleHunkFar] (by decide)⟩

/-- C8 (amended): a merged review unit with no new-side lines
(`newLines = 0`) is skipped - no prompt is created for it. (The claim's
"zero added lines" does not hold as stated: the code's skip condition is
`newLines === 0`, the count of new-side lines including context, not the
count of added lines; see the counterexample.) -/
theorem newLines_zero_not_prompted :
    ∀ (file : DiffFile) (c : Chunk), c.newLines = 0 → c ∉ promptedChunks file := by
  intro file c h0 hmem
  have hp := (List.mem_filter.mp hmem).2
  simp [chunkGetsPrompt, h0] at hp

/-- Counterexample for C8 as stated: a pure-deletion unit with one context
line has zero added lines, yet it is among the prompted chunks (its
`newLines` is 1, so the skip condition does not fire). -/
theorem added_zero_still_prompted :
    addedLineCount sampleDeletionHunk = 0 ∧
      sampleDeletionHunk ∈ promptedChunks sampleDeletionFile :=
  ⟨rfl, by decide⟩

/-- Witness for C8's amended theorem: the concrete no-new-lines hunk is not
prompted. -/
theorem newLines_zero_not_prompted_witness :
    sampleZeroNewHunk.newLines = 0 ∧
      sampleZeroNewHunk ∉ promptedChunks sampleZeroNewFile :=
  ⟨rfl, newLines_zero_not_prompted sampleZeroNewFile sampleZeroNewHunk rfl⟩

/-- C1 (amended): every comment surviving the duplicate filter collides
with no live comment's exact (path, line) pair and is dissimilar from every
live or historical comment on the same file within 10 lines. (The claim as
stated - that two same-run findings on the same (path, line) are
deduplicated against each other - fails: candidates are only checked
against existing and historical comments, not against one another; see the
counterexample.) -/
theorem dedupFilter_drops_existing_and_similar :
    ∀ (existingLines : List (String × Int)) (allCommentItems : List CommentItem)
      (comments : List ReviewComment) (c : ReviewComment),
      c ∈ dedupFilter existingLines allCommentItems comments →
      (c.path, c.line) ∉ existingLines ∧
        (∀ e ∈ allCommentItems, e.path = c.path → (e.line - c.line).natAbs < 10 →
          isCommentSimilar c.body e.body = false) := by
  intro existingLines allCommentItems comments c hmem
  have hp := (List.mem_filter.mp hmem).2
  by_cases hex : existingLines.any (fun pl => pl.1 = c.path && pl.2 = c.line) = true
  · rw [if_pos hex] at hp
    exact absurd hp (by simp)
  · have hexf : existingLines.any (fun pl => pl.1 = c.path && pl.2 = c.line) = false := by
      revert hex
      cases existingLines.any (fun pl => pl.1 = c.path && pl.2 = c.line) <;> simp
    rw [if_neg hex] at hp
    constructor
    · intro hpair
      have hall := List.any_eq_false.mp hexf _ hpair
      simp at hall
    · intro e he hpath hnear
      have hnb :
          (allCommentItems.filter fun existing =>
            existing.path = c.path && (existing.line - c.line).natAbs < 10).any
            (fun existing => isCommentSimilar c.body existing.body) = false := by
        simpa using hp
      have hemem : e ∈ allCommentItems.filter fun existing =>
          existing.path = c.path && (existing.line - c.line).natAbs < 10 :=
        List.mem_filter.mpr ⟨he, by simp [hpath, hnear]⟩
      have hne := List.any_eq_false.mp hnb e hemem
      revert hne
      cases isCommentSimilar c.body e.body <;> simp

/-- Counterexample for C1 as stated: two identical same-run findings on
`a.ts:3`, with no existing or historical comments, both pass the duplicate
filter - the second is not dropped, and two comments for the same
(path, line) reach the publisher. -/
theorem dedupFilter_keeps_same_run_duplicates :
    dedupFilter [] [] [sampleComment, sampleComment] = [sampleComment, sampleComment] := by
  decide

/-- Witness for C1's amended theorem: a surviving comment's (path, line)
pair is absent from the live-comment set. -/
theorem dedupFilter_drops_existing_and_similar_witness :
    sampleComment ∈ dedupFilter [(("b.ts" : String), (4 : Int))] [] [sampleComment] ∧
      (sampleComment.path, sampleComment.line) ∉ [(("b.ts" : String), (4 : Int))] :=
  ⟨by decide,
    (dedupFilter_drops_existing_and_similar [("b.ts", 4)] [] [sampleComment] sampleComment
      (by decide)).1⟩

/-- C9 (amended): the similarity decision uses shared-significant-word
count (words longer than 3 characters) plus substring containment for every
pair; the word-overlap-ratio check, against the strict 0.8 threshold, is
additionally applied only when either cleaned comment is shorter than 40
characters. For two long comments no ratio check happens at all: the
looser 0.6 threshold the claim describes is computed by the source but
never used. -/
theorem isCommentSimilar_thresholds :
    (∀ a b : String,
      40 ≤ (cleanComment a).length → 40 ≤ (cleanComment b).length →
      isCommentSimilar a b =
        (((splitWords (cleanComment a)).filter fun word =>
            word.length > 3 && containsStr (cleanComment b) word).length ≥ 3
          || (containsStr (cleanComment a) (cleanComment b)
              || containsStr (cleanComment b) (cleanComment a)))) ∧
    (∀ a b : String,
      ((cleanComment a).length < 40 ∨ (cleanComment b).length < 40) →
      isCommentSimilar a b =
        (((splitWords (cleanComment a)).filter fun word =>
            word.length > 3 && containsStr (cleanComment b) word).length ≥ 3
          || (containsStr (cleanComment a) (cleanComment b)
              || containsStr (cleanComment b) (cleanComment a))
          || (min (significantWords (cleanComment a)).length
                (significantWords (cleanComment b)).length > 0
              && 10 * ((significantWords (cleanComment a)).countP fun word =>
                    word ∈ significantWords (cleanComment b))
                > 8 * min (significantWords (cleanComment a)).length
                    (significantWords (cleanComment b)).length))) := by
  constructor
  · intro a b h1 h2
    unfold isCommentSimilar
    have hshort : ¬ ((cleanComment a).length < 40 ∨ (cleanComment b).length < 40) := by
      omega
    by_cases hA : ((splitWords (cleanComment a)).filter fun word =>
        word.length > 3 && containsStr (cleanComment b) word).length ≥ 3
    · rw [if_pos hA]
      symm
      simp [hA]
    · rw [if_neg hA]
      by_cases hB : (containsStr (cleanComment a) (cleanComment b)
          || containsStr (cleanComment b) (cleanComment a)) = true
      · rw [if_pos hB]
        symm
        simp [hA, hB]
      · have hBf : (containsStr (cleanComment a) (cleanComment b)
            || containsStr (cleanComment b) (cleanComment a)) = false := by
          revert hB
          cases containsStr (cleanComment a) (cleanComment b)
            || containsStr (cleanComment b) (cleanComment a) <;> simp
        rw [if_neg hB, if_neg hshort]
        symm
        simp only [Bool.or_eq_false_iff] at hBf
        simp [hA, hBf.1, hBf.2]
  · intro a b hshort
    unfold isCommentSimilar
    by_cases hA : ((splitWords (cleanComment a)).filter fun word =>
        word.length > 3 && containsStr (cleanComment b) word).length ≥ 3
    · rw [if_pos hA]
      symm
      simp [hA]
    · rw [if_neg hA]
      by_cases hB : (containsStr (cleanComment a) (cleanComment b)
          || containsStr (cleanComment b) (cleanComment a)) = true
      · rw [if_pos hB]
        symm
        simp [hA, hB]
      · have hBf : (containsStr (cleanComment a) (cleanComment b)
            || containsStr (cleanComment b) (cleanComment a)) = false := by
          revert hB
          cases containsStr (cleanComment a) (cleanComment b)
            || containsStr (cleanComment b) (cleanComment a) <;> simp
        rw [if_neg hB, if_pos hshort, if_pos hshort]
        symm
        simp only [Bool.or_eq_false_iff] at hBf
        simp [hA, hBf.1, hBf.2]

/-- Counterexample for C9 as stated: two long comments (both cleaned
lengths at least 40) that the spec's decision - with the looser 0.6
threshold applied to longer comments - marks similar (their word-overlap
ratio is 2/2 = 1), yet the source's decision marks dissimilar, because the
ratio branch is unreachable for long comments. -/
theorem isCommentSimilar_long_threshold_unused :
    isCommentSimilar sampleLongCommentA sampleLongCommentB = false ∧
      isCommentSimilarSpec sampleLongCommentA sampleLongCommentB = true ∧
      40 ≤ (cleanComment sampleLongCommentA).length ∧
      40 ≤ (cleanComment sampleLongCommentB).length := by
  refine ⟨by decide, by decide, by decide, by decide⟩

/-- Witness for C9's amended theorem, at the concrete long pair: for long
comments the decision is exactly shared-word count plus containment. -/
theorem isCommentSimilar_thresholds_witness :
    isCommentSimilar sampleLongCommentA sampleLongCommentB =
      (((splitWords (cleanComment sampleLongCommentA)).filter fun word =>
          word.length > 3 && containsStr (cleanComment sampleLongCommentB) word).length ≥ 3
        || (containsStr (cleanComment sampleLongCommentA) (cleanComment sampleLongCommentB)
            || containsStr (cleanComment sampleLongCommentB) (cleanComment sampleLongCommentA))) :=
  isCommentSimilar_thresholds.1 sampleLongCommentA sampleLongCommentB (by decide) (by decide)

/-- C7: with the default settings (3 attempts, 1000 ms base delay), an
operation that fails twice with transient (non-rate-limit) errors and
succeeds on the third attempt returns the successful result and performs
exactly the two delays 1000 ms and 2000 ms - the second strictly larger
than the first, the delay growing linearly with the attempt index; and
whenever a failed attempt's error message indicates rate limiting, the
delay performed after it uses the base delay multiplied by 3 and capped at
the maximum retry delay. -/
theorem withRetry_transient_and_rate_limit :
    (∀ {α : Type} (op : Nat → Except String α) (e1 e2 : String) (v : α),
      op 1 = Except.error e1 → op 2 = Except.error e2 → op 3 = Except.ok v →
      isRateLimitError e1 = false → isRateLimitError e2 = false →
      withRetry op MAX_RETRIES RETRY_DELAY = (Except.ok v, [1000, 2000]) ∧
        (1000 : Int) < 2000) ∧
    (∀ {α : Type} (op : Nat → Except String α) (attempt r : Nat) (delayMs : Int)
      (e : String),
      op attempt = Except.error e → isRateLimitError e = true →
      ∃ rest, (withRetryGo op attempt (r + 1) delayMs).2 =
        min (delayMs * 3) MAX_RETRY_DELAY * (attempt : Int) :: rest) := by
  constructor
  · intro α op e1 e2 v h1 h2 h3 hr1 hr2
    refine ⟨?_, by norm_num⟩
    show withRetryGo op 1 2 1000 = (Except.ok v, [1000, 2000])
    simp [withRetryGo, h1, h2, h3, hr1, hr2]
  · intro α op attempt r delayMs e hop hrl
    refine ⟨(withRetryGo op (attempt + 1) r (min (delayMs * 3) MAX_RETRY_DELAY)).2, ?_⟩
    rw [withRetryGo.eq_def, hop]
    simp [hrl]

/-- Witness for C7: a concrete operation failing twice with a transient
HTTP error and succeeding on the third attempt returns the success with
delays 1000 and 2000; and a rate-limited first failure with the default
base delay produces a first delay of 3000. -/
theorem withRetry_transient_and_rate_limit_witness :
    withRetry (fun i => if i ≤ 2 then Except.error "HTTP 500" else Except.ok 42)
        MAX_RETRIES RETRY_DELAY = (Except.ok 42, [1000, 2000]) ∧
      ∃ rest,
        (withRetryGo (fun _ => (Except.error "rate limit exceeded" : Except String Nat))
          1 2 1000).2 = 3000 :: rest :=
  ⟨(withRetry_transient_and_rate_limit.1
      (fun i => if i ≤ 2 then Except.error "HTTP 500" else Except.ok 42)
      "HTTP 500" "HTTP 500" 42 rfl rfl rfl rfl rfl).1,
    withRetry_transient_and_rate_limit.2
      (fun _ => (Except.error "rate limit exceeded" : Except String Nat))
      1 1 1000 "rate limit exceeded" rfl rfl⟩

/-- C4 (amended): the publisher raises its hard failure exactly when the
pre-publish re-validation leaves a non-empty comment list and the batch
loop produces zero successes; in every other case - including partial
failure, and including a non-empty submission whose comments are all
dropped by re-validation - it returns normally (with the success/failure
counts and the failed comments), and no error other than the single hard
failure is ever raised. (The claim as stated - hard failure iff the
submission was non-empty and had zero successes - fails when every comment
is dropped by re-validation; see the counterexample.) -/
theorem createReviewComment_error_iff :
    (∀ (validate : ReviewComment → Option ReviewComment) (batchFails : Nat → Bool)
      (comments : List ReviewComment),
      (∃ e, createReviewComment validate batchFails comments = Except.error e) ↔
        (comments.filterMap validate ≠ [] ∧
          (runBatches batchFails 0 (0, 0, [])
            (toBatches (comments.filterMap validate))).1 = 0)) ∧
    (∀ (validate : ReviewComment → Option ReviewComment) (batchFails : Nat → Bool)
      (comments : List ReviewComment),
      (∃ res : PublishResult,
        createReviewComment validate batchFails comments = Except.ok res) ∨
      createReviewComment validate batchFails comments =
        Except.error "Failed to create any comments") := by
  constructor
  · intro validate batchFails comments
    simp only [createReviewComment]
    by_cases hf : (comments.filterMap validate).length = 0
    · rw [if_pos hf]
      constructor
      · rintro ⟨e, he⟩
        exact absurd he (by simp)
      · rintro ⟨hne, -⟩
        exact absurd (List.length_eq_zero.mp hf) hne
    · rw [if_neg hf]
      have hcomments : comments.length > 0 := by
        cases comments with
        | nil => simp at hf
        | cons c cs => simp
      by_cases hs :
          (runBatches batchFails 0 (0, 0, [])
            (toBatches (comments.filterMap validate))).1 = 0
      · rw [if_pos ⟨hs, hcomments⟩]
        exact iff_of_true ⟨_, rfl⟩ ⟨fun h => hf (by rw [h]; rfl), hs⟩
      · rw [if_neg (fun hc => hs hc.1)]
        constructor
        · rintro ⟨e, he⟩
          exact absurd he (by simp)
        · rintro ⟨-, hs2⟩
          exact absurd hs2 hs
  · intro validate batchFails comments
    simp only [createReviewComment]
    by_cases hf : (comments.filterMap validate).length = 0
    · rw [if_pos hf]
      exact Or.inl ⟨_, rfl⟩
    · rw [if_neg hf]
      by_cases hc :
          (runBatches batchFails 0 (0, 0, [])
            (toBatches (comments.filterMap validate))).1 = 0 ∧ comments.length > 0
      · rw [if_pos hc]
        exact Or.inr rfl
      · rw [if_neg hc]
        exact Or.inl ⟨_, rfl⟩

/-- Counterexample for C4 as stated: a non-empty submission whose only
comment is dropped by the pre-publish re-validation has zero successes,
yet the publisher returns normally instead of raising the hard failure the
claim requires for every zero-success non-empty submission. -/
theorem createReviewComment_all_dropped_no_error :
    createReviewComment (fun _ => none) (fun _ => false) [sampleComment] =
        Except.ok ⟨0, 0, []⟩ ∧
      ([sampleComment] : List ReviewComment) ≠ [] :=
  ⟨rfl, by decide⟩

/-- Witness for C4's amended theorem: one validated comment whose only
batch fails yields the hard failure. -/
theorem createReviewComment_error_iff_witness :
    ∃ e, createReviewComment (fun c => some c) (fun _ => true) [sampleComment] =
      Except.error e :=
  (createReviewComment_error_iff.1 (fun c => some c) (fun _ => true) [sampleComment]).mpr
    ⟨by decide, by decide⟩

/-- Helper: a `try`/`catch` whose handler always returns normally never
propagates an error. -/
theorem tryCatchE_total {α : Type} (body : Except String α) (g : String → α) :
    ∃ v, tryCatchE body (fun e => Except.ok (g e)) = Except.ok v := by
  cases body with
  | ok v => exact ⟨v, rfl⟩
  | error e => exact ⟨g e, rfl⟩

/-- C5: the model gateway never lets an exception escape. For every
behaviour of the API, the JSON parser, the salvage regular expressions and
the cache - including ones that throw everywhere - `getOpenAIResponse` and
`getAIResponse` return normally; when the retried provider call ends in an
error (exhausted retries) the result is `null`, and when every parse
attempt throws and the salvage regular expressions match nothing the result
degrades to `null` (no findings) rather than an exception. -/
theorem getAIResponse_never_throws :
    (∀ (apiCall : Nat → Except String (Option String))
       (parse : String → Except String (Option (List AIReviewResponse)))
       (extractReviewsRegex : String → Option String)
       (objectMatches : String → Option (List String))
       (parseReview : String → Except String AIReviewResponse),
      ∃ v, getOpenAIResponse apiCall parse extractReviewsRegex objectMatches parseReview =
        Except.ok v) ∧
    (∀ (cacheLookup : Except String (Option (List AIReviewResponse)))
       (providerCall : Nat → Except String (Option (List AIReviewResponse)))
       (cacheStore : Except String Unit),
      ∃ v, getAIResponse cacheLookup providerCall cacheStore = Except.ok v) ∧
    (∀ (providerCall : Nat → Except String (Option (List AIReviewResponse)))
       (cacheStore : Except String Unit) (e : String),
      (withRetry providerCall MAX_RETRIES RETRY_DELAY).1 = Except.error e →
      getAIResponse (Except.ok none) providerCall cacheStore = Except.ok none) ∧
    (∀ (apiCall : Nat → Except String (Option String))
       (parse : String → Except String (Option (List AIReviewResponse)))
       (parseReview : String → Except String AIReviewResponse),
      (∀ s, ∃ err, parse s = Except.error err) →
      getOpenAIResponse apiCall parse (fun _ => none) (fun _ => none) parseReview =
        Except.ok none) := by
  refine ⟨?_, ?_, ?_, ?_⟩
  · intro apiCall parse extractReviewsRegex objectMatches parseReview
    exact tryCatchE_total _ (fun _ => none)
  · intro cacheLookup providerCall cacheStore
    exact tryCatchE_total _ (fun _ => none)
  · intro providerCall cacheStore e hretry
    simp [getAIResponse, tryCatchE, Bind.bind, Except.bind, hretry]
  · intro apiCall parse parseReview hp
    cases hw : (withRetry apiCall MAX_RETRIES RETRY_DELAY).1 with
    | error e =>
      simp [getOpenAIResponse, tryCatchE, Bind.bind, Except.bind, Pure.pure,
        Except.pure, hw]
    | ok resp =>
      cases resp with
      | none =>
        simp [getOpenAIResponse, tryCatchE, Bind.bind, Except.bind, Pure.pure,
          Except.pure, hw]
      | some content =>
        by_cases hemp : content.trim = ""
        · simp [getOpenAIResponse, tryCatchE, Bind.bind, Except.bind, Pure.pure,
            Except.pure, hw, hemp]
        · obtain ⟨err, herr⟩ := hp content.trim
          simp [getOpenAIResponse, tryCatchE, salvageParse, Bind.bind, Except.bind,
            Pure.pure, Except.pure, hw, hemp, herr]

/-- Witness for C5: with an empty cache and a provider call that throws an
HTTP error on every attempt, `getAIResponse` returns `null` rather than
propagating the exception. -/
theorem getAIResponse_never_throws_witness :
    getAIResponse (Except.ok none) (fun _ => Except.error "HTTP 500") (Except.ok ()) =
      (Except.ok none : Except String (Option (List AIReviewResponse))) :=
  getAIResponse_never_throws.2.2.1 (fun _ => Except.error "HTTP 500") (Except.ok ())
    "HTTP 500" rfl

end AICodeReviewer
